import Mathlib

/-!
Shallow embedding of the Storage Adapter in `src/r2.rs` of the
`r2-webdav` repository: the `R2` struct and its six operations
(`get`, `list`, `patch_metadata`, `download`, `delete`, `put`)
over a Cloudflare R2 `Bucket`.

The bucket of the `worker` crate is external to the repository; it is
modelled here as an explicit backend: a key-addressed store of objects plus
injectable failure points, one for each fallible backend call the Rust
code performs (`bucket.get(..).execute()`, `file.custom_metadata()`,
`file.body()`, `body.stream()`, `bucket.put(..).execute()`,
`bucket.list()...execute()`, `bucket.delete(..)`).  Rust `Result<T, String>`
becomes `Except String T`, `Option` becomes `Option`, `HashMap<String,String>`
becomes an association list, byte streams become `List Nat`, and u64
arithmetic is `Nat` with explicit reduction modulo `2 ^ 64` (release-profile
wrapping semantics).
-/

namespace R2WebDav

/-- Rust `HashMap<String, String>` (custom metadata), as an association list. -/
abbrev Smap := List (String × String)

/-- Modelled from the spec: the HTTP-style system metadata of an object
(`worker::HttpMetadata`); its fields are never inspected by `src/r2.rs`,
which only passes it to `HttpResponseHeaders::from`. -/
structure HttpMetadata where
  contentType : Option String
deriving Repr, DecidableEq

/-- Type `worker::Range` (aliased `R2Range` in `src/r2.rs`): the three
range-addressing modes of the backend. -/
inductive R2Range where
  | OffsetWithLength (offset : Nat) (length : Nat)
  | OffsetWithOptionalLength (offset : Nat) (length : Option Nat)
  | OptionalOffsetWithLength (offset : Option Nat) (length : Nat)
deriving Repr, DecidableEq

/-- Modelled from the spec: `crate::values::Range` (its source file is not
under `src/`) — "an input value with two optional integer fields, `start`
and `end`, both inclusive byte offsets when present". -/
structure Range where
  start : Option Nat
  «end» : Option Nat
deriving Repr, DecidableEq

deriving instance DecidableEq for Except

/-- View of one backend object as `src/r2.rs` sees it through the
`worker` crate: `file.key()`, `file.size()`, `file.http_metadata()`,
the result of `file.custom_metadata()` (a Rust `Result`), and
`file.body()` followed by `body.stream()` (an `Option` of a `Result`). -/
structure R2Object where
  key : String
  size : Nat
  httpMetadata : HttpMetadata
  customMetadata : Except String Smap
  body : Option (Except String (List Nat))
deriving Repr, DecidableEq

/-- Modelled from the spec: `crate::values::DavProperties` (not under
`src/`) — "derived, read-only view of one backend object"; `src/r2.rs`
only ever builds it via `DavProperties::from(&file)` and returns it opaquely. -/
structure DavProperties where
  key : String
  size : Nat
  httpMetadata : HttpMetadata
deriving Repr, DecidableEq

/-- Modelled from the spec: `DavProperties::from(&file)` packages the
backend metadata of the fetched object. -/
def DavProperties.from (file : R2Object) : DavProperties :=
  { key := file.key, size := file.size, httpMetadata := file.httpMetadata }

/-- Modelled from the spec: `crate::values::HttpResponseHeaders` (not under
`src/`) — "derived view of backend HTTP-style metadata"; built only via
`HttpResponseHeaders::from(file.http_metadata())` and returned opaquely. -/
structure HttpResponseHeaders where
  meta : HttpMetadata
deriving Repr, DecidableEq

/-- Modelled from the spec: `HttpResponseHeaders::from`. -/
def HttpResponseHeaders.from (m : HttpMetadata) : HttpResponseHeaders :=
  { meta := m }

/-- Embeds `worker::FixedLengthStream::wrap(stream, length)`: a stream
paired with an up-front declared byte length. -/
structure FixedLengthStream where
  stream : List Nat
  length : Nat
deriving Repr, DecidableEq

/-- An object as stored at the backend: content bytes and custom metadata. -/
structure StoredObject where
  content : List Nat
  customMetadata : Smap
  httpMetadata : HttpMetadata
deriving Repr, DecidableEq

/-- Key-to-object map of the backend, as an association list. -/
abbrev Store := List (String × StoredObject)

/-- The backend bucket: its current store together with one injectable
failure point per fallible call made by `src/r2.rs`.  `getFail` depends on
the range argument the adapter passes and `putFail` on the
`FixedLengthStream` it uploads, so that exactly what the adapter forwards
to `bucket.get` and `bucket.put` is observable in its results. -/
structure Backend where
  store : Store
  getFail : String → Option R2Range → Option String
  customMetaFail : String → Option String
  bodyAbsent : String → Bool
  streamFail : String → Option String
  listing : String → Except String (List R2Object)
  putFail : String → FixedLengthStream → Option String
  putRespMetaFail : Option String
  deleteResult : String → Except String Unit

/-- Object view the adapter obtains for a stored object at `key`:
`custom_metadata()` and `body()`/`stream()` answer according to the
injected failures of the backend; `size` is the byte length of the stored
content. -/
def StoredObject.toObject (o : StoredObject) (key : String) (b : Backend) : R2Object :=
  { key := key
    size := o.content.length
    httpMetadata := o.httpMetadata
    customMetadata :=
      match b.customMetaFail key with
      | some e => .error e
      | none => .ok o.customMetadata
    body :=
      if b.bodyAbsent key then none
      else some (match b.streamFail key with
        | some e => .error e
        | none => .ok o.content) }

/-- Embeds `self.bucket.get(path)[.range(r)].execute().await`: a transport
failure if injected, otherwise the (optional) object at `path`. -/
def Backend.getExec (b : Backend) (path : String) (range : Option R2Range) :
    Except String (Option R2Object) :=
  match b.getFail path range with
  | some e => .error e
  | none => .ok ((b.store.lookup path).map fun o => o.toObject path b)

/-- Replaces (or creates) the entry at `key` in a store. -/
def storeSet (s : Store) (key : String) (v : StoredObject) : Store :=
  (key, v) :: s.filter fun p => p.1 ≠ key

/-- Embeds `self.bucket.put(path, FixedLengthStream::wrap(..))`
`[.custom_metadata(m)].execute().await`: on failure the store is
unchanged; on success the stored object at `path` becomes the uploaded
content with the attached metadata (or an empty map when none is
attached), and the write response reports the written object, whose
`custom_metadata()` accessor may itself fail to read. -/
def Backend.putExec (b : Backend) (path : String) (fls : FixedLengthStream)
    (metadata : Option Smap) : Except String R2Object × Store :=
  match b.putFail path fls with
  | some e => (.error e, b.store)
  | none =>
    let written : StoredObject :=
      { content := fls.stream
        customMetadata := metadata.getD []
        httpMetadata := { contentType := none } }
    let resp : R2Object :=
      { key := path
        size := fls.stream.length
        httpMetadata := written.httpMetadata
        customMetadata :=
          match b.putRespMetaFail with
          | some e => .error e
          | none => .ok written.customMetadata
        body := none }
    (.ok resp, storeSet b.store path written)

/-- Embeds `R2::get` (src/r2.rs lines 15–38). -/
def R2.get (b : Backend) (path : String) :
    Except String (String × DavProperties × HttpResponseHeaders × Smap) :=
  match b.getExec path none with
  | .ok f =>
    match f with
    | none => .error "Resource not found"
    | some file =>
      .ok (file.key, DavProperties.from file,
        HttpResponseHeaders.from file.httpMetadata,
        match file.customMetadata with
        | .ok m => m
        | .error _ => [])
  | .error e => .error e

/-- Embeds `R2::list` (src/r2.rs lines 40–52).  Returns the result of the
call paired with the list of keys logged at debug level by
`console_debug!`. -/
def R2.list (b : Backend) (path : String) :
    Except String (List (String × DavProperties)) × List String :=
  match b.listing path with
  | .ok files =>
    (.ok (files.map fun file => (file.key, DavProperties.from file)),
     files.map fun file => file.key)
  | .error e => (.error e, [])

/-- Embeds `R2::patch_metadata` (src/r2.rs lines 54–87).  Returns the
result of the call paired with the backend store after the call. -/
def R2.patch_metadata (b : Backend) (path : String) (metadata : Smap) :
    Except String Smap × Store :=
  match b.getExec path none with
  | .ok f =>
    match f with
    | some file =>
      match file.body with
      | some bodyRes =>
        match bodyRes with
        | .ok stream =>
          match b.putExec path { stream := stream, length := file.size } (some metadata) with
          | (.ok putFile, store2) =>
            match putFile.customMetadata with
            | .ok m => (.ok m, store2)
            | .error e => (.error e, store2)
          | (.error e, store2) => (.error e, store2)
        | .error e => (.error e, b.store)
      | none => (.error "Failed to get file body stream", b.store)
    | none => (.error "Resource not found", b.store)
  | .error e => (.error e, b.store)

/-- Embeds the range translation inlined in `R2::download` (src/r2.rs
lines 94–108).  The u64 computation `end - start + 1` is taken modulo
`2 ^ 64` (release-profile wrapping semantics); `e + 2 ^ 64 - s + 1` equals
`e - s + 1` wrapped in u64 arithmetic, for all `s < 2 ^ 64`. -/
def toR2Range (range : Range) : Option R2Range :=
  match range.start, range.«end» with
  | some start, some e =>
    some (.OffsetWithLength start ((e + 2 ^ 64 - start + 1) % 2 ^ 64))
  | some start, none => some (.OffsetWithOptionalLength start none)
  | none, some e => some (.OptionalOffsetWithLength none e)
  | none, none => none

/-- Embeds `R2::download` (src/r2.rs lines 89–134). -/
def R2.download (b : Backend) (path : String) (range : Range) :
    Except String (DavProperties × HttpResponseHeaders × List Nat) :=
  match b.getExec path (toR2Range range) with
  | .ok f =>
    match f with
    | none => .error "Resource not found"
    | some file =>
      match file.body with
      | none => .error "Failed to get file body stream"
      | some bodyRes =>
        match bodyRes with
        | .error _ => .error "Failed to get file body stream"
        | .ok stream =>
          .ok (DavProperties.from file,
            HttpResponseHeaders.from file.httpMetadata, stream)
  | .error e => .error e

/-- Embeds `R2::delete` (src/r2.rs lines 136–141). -/
def R2.delete (b : Backend) (path : String) : Except String Unit :=
  match b.deleteResult path with
  | .ok _ => .ok ()
  | .error e => .error e

/-- Embeds `R2::put` (src/r2.rs lines 143–158).  Returns the result of the
call paired with the backend store after the call. -/
def R2.put (b : Backend) (path : String) (stream : List Nat)
    (content_length : Nat) : Except String DavProperties × Store :=
  match b.putExec path { stream := stream, length := content_length } none with
  | (.ok file, store2) => (.ok (DavProperties.from file), store2)
  | (.error e, store2) => (.error e, store2)

/-- A backend over a given store with no injected failures: every backend
call succeeds, listing answers empty. -/
def Backend.clean (s : Store) : Backend where
  store := s
  getFail := fun _ _ => none
  customMetaFail := fun _ => none
  bodyAbsent := fun _ => false
  streamFail := fun _ => none
  listing := fun _ => .ok []
  putFail := fun _ _ => none
  putRespMetaFail := none
  deleteResult := fun _ => .ok ()

/-- A small concrete stored object used in concrete instantiations:
five content bytes and one metadata pair. -/
def sampleObj : StoredObject :=
  { content := [104, 101, 108, 108, 111]
    customMetadata := [("owner", "x")]
    httpMetadata := { contentType := some "text/plain" } }

/-- Two backends agree at a path when every path-indexed backend behaviour
coincides there (stored object, every failure injection, listing and
delete answers). -/
def Backend.agreesAt (b1 b2 : Backend) (path : String) : Prop :=
  b1.store.lookup path = b2.store.lookup path ∧
  b1.getFail path = b2.getFail path ∧
  b1.customMetaFail path = b2.customMetaFail path ∧
  b1.bodyAbsent path = b2.bodyAbsent path ∧
  b1.streamFail path = b2.streamFail path ∧
  b1.listing path = b2.listing path ∧
  b1.putFail path = b2.putFail path ∧
  b1.putRespMetaFail = b2.putRespMetaFail ∧
  b1.deleteResult path = b2.deleteResult path

lemma StoredObject.toObject_congr {b1 b2 : Backend} {path : String}
    (h : Backend.agreesAt b1 b2 path) (o : StoredObject) :
    o.toObject path b1 = o.toObject path b2 := by
  obtain ⟨-, -, hc, hb, hs, -⟩ := h
  simp [StoredObject.toObject, hc, hb, hs]

lemma Backend.getExec_congr {b1 b2 : Backend} {path : String}
    (h : Backend.agreesAt b1 b2 path) (r : Option R2Range) :
    b1.getExec path r = b2.getExec path r := by
  have ht := StoredObject.toObject_congr h
  obtain ⟨hl, hg, -⟩ := h
  simp only [Backend.getExec, hg, hl]
  cases b2.getFail path r <;> simp [ht]

lemma Backend.putExec_fst_congr {b1 b2 : Backend} {path : String}
    (h : Backend.agreesAt b1 b2 path) (fls : FixedLengthStream)
    (m : Option Smap) :
    (b1.putExec path fls m).1 = (b2.putExec path fls m).1 := by
  obtain ⟨-, -, -, -, -, -, hp, hr, -⟩ := h
  simp only [Backend.putExec, hp, hr]
  cases b2.putFail path fls <;> simp

/-- C1: a download call translates the optional (start, end) pair into the
backend range representation by exactly four exclusive cases — both
present gives `offset = start` and `length = end - start + 1`; start only
gives `offset = start` with unbounded length; end only gives a suffix read
of length `end` with no offset; neither gives no range parameter — and the
translated value is exactly what `download` hands to the backend get call. -/
theorem download_range_translation (s e : Nat) (hse : s ≤ e)
    (hlen : e - s + 1 < 2 ^ 64) :
    toR2Range { start := some s, «end» := some e } =
      some (.OffsetWithLength s (e - s + 1)) ∧
    toR2Range { start := some s, «end» := none } =
      some (.OffsetWithOptionalLength s none) ∧
    toR2Range { start := none, «end» := some e } =
      some (.OptionalOffsetWithLength none e) ∧
    toR2Range { start := none, «end» := none } = none ∧
    (∀ (b : Backend) (path : String) (r : Range) (msg : String),
      b.getFail path (toR2Range r) = some msg →
      R2.download b path r = .error msg) := by
  refine ⟨?_, rfl, rfl, rfl, ?_⟩
  · have h1 : e + 2 ^ 64 - s + 1 = (e - s + 1) + 2 ^ 64 := by omega
    simp only [toR2Range, h1, Nat.add_mod_right, Nat.mod_eq_of_lt hlen]
  · intro b path r msg h
    simp [R2.download, Backend.getExec, h]

/-- C1 witness: the translation at the concrete range (6, 10) and the
pass-through of a backend failure at exactly that translated range. -/
theorem download_range_translation_witness :
    toR2Range { start := some 6, «end» := some 10 } =
      some (.OffsetWithLength 6 5) ∧
    R2.download
      { Backend.clean [("k", sampleObj)] with
        getFail := fun _ r => if r = some (.OffsetWithLength 6 5) then some "range seen" else none }
      "k" { start := some 6, «end» := some 10 } = .error "range seen" := by
  have h := download_range_translation 6 10 (by decide) (by decide)
  refine ⟨h.1, h.2.2.2.2 _ "k" _ "range seen" ?_⟩
  decide

/-- C3: for an inverted both-present range (start > end) the adapter does
not validate; the translation is total (release-profile u64 wrapping:
`end - start + 1` is taken modulo `2 ^ 64`), the translated range is
passed to the backend unchanged, and no adapter-level failure occurs —
with a clean backend and an existing object the download succeeds. -/
theorem download_inverted_range_passthrough (s e : Nat) (hinv : e < s) :
    toR2Range { start := some s, «end» := some e } =
      some (.OffsetWithLength s ((e + 2 ^ 64 - s + 1) % 2 ^ 64)) ∧
    (∀ s2 e2 : Nat,
      (toR2Range { start := some s2, «end» := some e2 }).isSome = true) ∧
    (∀ (b : Backend) (path : String) (msg : String),
      b.getFail path (toR2Range { start := some s, «end» := some e }) = some msg →
      R2.download b path { start := some s, «end» := some e } = .error msg) ∧
    (∀ (st : Store) (path : String) (o : StoredObject),
      st.lookup path = some o →
      R2.download (Backend.clean st) path { start := some s, «end» := some e } =
        .ok (DavProperties.from (o.toObject path (Backend.clean st)),
          HttpResponseHeaders.from o.httpMetadata, o.content)) := by
  refine ⟨rfl, fun s2 e2 => rfl, ?_, ?_⟩
  · intro b path msg h
    simp only [R2.download, Backend.getExec]
    rw [h]
  · intro st path o hlook
    simp [R2.download, Backend.getExec, Backend.clean, StoredObject.toObject,
      DavProperties.from, HttpResponseHeaders.from, hlook]

/-- C3 witness: the inverted range (5, 3) wraps to length `2 ^ 64 - 1`,
is forwarded, and downloads succeed on a clean backend. -/
theorem download_inverted_range_passthrough_witness :
    toR2Range { start := some 5, «end» := some 3 } =
      some (.OffsetWithLength 5 18446744073709551615) ∧
    R2.download (Backend.clean [("k", sampleObj)]) "k"
        { start := some 5, «end» := some 3 } =
      .ok (DavProperties.from (sampleObj.toObject "k"
            (Backend.clean [("k", sampleObj)])),
        HttpResponseHeaders.from sampleObj.httpMetadata, sampleObj.content) := by
  have h := download_inverted_range_passthrough 5 3 (by decide)
  exact ⟨h.1, h.2.2.2 [("k", sampleObj)] "k" sampleObj rfl⟩

/-- C7: when the backend listing succeeds, `list` returns exactly one
(key, DavProperties) pair per reported object, in the order the backend
reported them with no sort applied, an empty listing yields success with
an empty sequence, and the keys logged at debug level are exactly the
visited keys in order. -/
theorem list_maps_backend_listing (b : Backend) (path : String)
    (files : List R2Object) (hls : b.listing path = .ok files) :
    R2.list b path =
      (.ok (files.map fun file => (file.key, DavProperties.from file)),
       files.map fun file => file.key) := by
  simp [R2.list, hls]

/-- C7 witness: a two-object listing is mapped in order with its keys
logged, and an empty listing yields success with an empty sequence. -/
theorem list_maps_backend_listing_witness :
    R2.list
      { Backend.clean [] with
        listing := fun _ => .ok
          [{ key := "a", size := 1, httpMetadata := { contentType := none },
             customMetadata := .ok [], body := none },
           { key := "b", size := 2, httpMetadata := { contentType := none },
             customMetadata := .ok [], body := none }] } "p" =
      (.ok [("a", { key := "a", size := 1, httpMetadata := { contentType := none } }),
            ("b", { key := "b", size := 2, httpMetadata := { contentType := none } })],
       ["a", "b"]) ∧
    R2.list (Backend.clean []) "q" = (.ok [], []) := by
  constructor
  · have h := list_maps_backend_listing
      { Backend.clean [] with
        listing := fun _ => .ok
          [{ key := "a", size := 1, httpMetadata := { contentType := none },
             customMetadata := .ok [], body := none },
           { key := "b", size := 2, httpMetadata := { contentType := none },
             customMetadata := .ok [], body := none }] } "p"
      [{ key := "a", size := 1, httpMetadata := { contentType := none },
         customMetadata := .ok [], body := none },
       { key := "b", size := 2, httpMetadata := { contentType := none },
         customMetadata := .ok [], body := none }] rfl
    simpa [DavProperties.from] using h
  · exact list_maps_backend_listing (Backend.clean []) "q" [] rfl

/-- C8: `delete` issues the single backend delete call and returns success
exactly when the backend reports success, surfaces a transport failure
with its message, and does not special-case an already-absent key: its
result is determined by the backend delete answer alone, independent of
whether an object is stored at the key. -/
theorem delete_forwards_backend_result (b bb : Backend) (path : String) :
    (b.deleteResult path = .ok () → R2.delete b path = .ok ()) ∧
    (∀ msg, b.deleteResult path = .error msg → R2.delete b path = .error msg) ∧
    (b.deleteResult path = bb.deleteResult path →
      R2.delete b path = R2.delete bb path) := by
  refine ⟨?_, ?_, ?_⟩
  · intro h; simp [R2.delete, h]
  · intro msg h; simp [R2.delete, h]
  · intro h
    simp only [R2.delete, h]

/-- C8 witness: deleting an absent key succeeds, and a backend holding an
object at the key gives the identical result as one not holding it. -/
theorem delete_forwards_backend_result_witness :
    R2.delete (Backend.clean []) "k" = .ok () ∧
    R2.delete (Backend.clean [("k", sampleObj)]) "k" =
      R2.delete (Backend.clean []) "k" :=
  ⟨(delete_forwards_backend_result (Backend.clean []) (Backend.clean []) "k").1 rfl,
   (delete_forwards_backend_result (Backend.clean [("k", sampleObj)])
      (Backend.clean []) "k").2.2 rfl⟩

/-- C10: error kinds are encoded only by fixed message strings of the
plain-string error type — a missing object yields exactly
"Resource not found" (in `get` and in `patch_metadata`), the body-absent
and stream-open-failure cases of `download` both yield exactly
"Failed to get file body stream", and a backend failure whose message
happens to equal one of these strings produces a result indistinguishable
from the corresponding kind. -/
theorem error_kind_strings_and_overlap :
    R2.get (Backend.clean []) "k" = .error "Resource not found" ∧
    (R2.patch_metadata (Backend.clean []) "k" []).1 =
      .error "Resource not found" ∧
    R2.download
        { Backend.clean [("k", sampleObj)] with bodyAbsent := fun _ => true }
        "k" { start := none, «end» := none } =
      .error "Failed to get file body stream" ∧
    R2.download
        { Backend.clean [("k", sampleObj)] with
          streamFail := fun _ => some "io error" }
        "k" { start := none, «end» := none } =
      .error "Failed to get file body stream" ∧
    (R2.patch_metadata
        { Backend.clean [("k", sampleObj)] with bodyAbsent := fun _ => true }
        "k" []).1 = .error "Failed to get file body stream" ∧
    R2.get
        { Backend.clean [("k", sampleObj)] with
          getFail := fun _ _ => some "Resource not found" } "k" =
      R2.get (Backend.clean []) "k" ∧
    R2.download
        { Backend.clean [("k", sampleObj)] with
          getFail := fun _ _ => some "Failed to get file body stream" }
        "k" { start := none, «end» := none } =
      R2.download
        { Backend.clean [("k", sampleObj)] with bodyAbsent := fun _ => true }
        "k" { start := none, «end» := none } :=
  ⟨rfl, rfl, rfl, rfl, rfl, rfl, rfl⟩

/-- C2: `patch_metadata` re-uploads the fetched content stream to the same
key with the declared length equal to the size reported by the fetched
metadata (observable: a backend failing exactly on that upload is
surfaced), and on success it attaches the new metadata map as the
complete custom metadata of the object — the stored object afterwards has
byte-identical content and custom metadata exactly `metadata` — returning
the metadata confirmed by the write response of the backend. -/
theorem patch_metadata_roundtrip (b : Backend) (path : String)
    (metadata : Smap) (o : StoredObject)
    (hlook : b.store.lookup path = some o)
    (hget : b.getFail path none = none)
    (hbody : b.bodyAbsent path = false)
    (hstream : b.streamFail path = none) :
    (∀ msg,
      b.putFail path { stream := o.content, length := o.content.length } = some msg →
      (R2.patch_metadata b path metadata).1 = .error msg) ∧
    (b.putFail path { stream := o.content, length := o.content.length } = none →
     b.putRespMetaFail = none →
      R2.patch_metadata b path metadata =
        (.ok metadata,
         storeSet b.store path
           { content := o.content, customMetadata := metadata,
             httpMetadata := { contentType := none } }) ∧
      (R2.patch_metadata b path metadata).2.lookup path =
        some { content := o.content, customMetadata := metadata,
               httpMetadata := { contentType := none } }) := by
  constructor
  · intro msg hput
    simp [R2.patch_metadata, Backend.getExec, Backend.putExec,
      StoredObject.toObject, hlook, hget, hbody, hstream, hput]
  · intro hput hresp
    have hmain : R2.patch_metadata b path metadata =
        (.ok metadata,
         storeSet b.store path
           { content := o.content, customMetadata := metadata,
             httpMetadata := { contentType := none } }) := by
      simp [R2.patch_metadata, Backend.getExec, Backend.putExec,
        StoredObject.toObject, hlook, hget, hbody, hstream, hput, hresp]
    refine ⟨hmain, ?_⟩
    rw [hmain]
    simp [storeSet, List.lookup]

/-- C2 witness: patching a concrete object replaces its metadata in full,
keeps its five content bytes, and returns the new map. -/
theorem patch_metadata_roundtrip_witness :
    R2.patch_metadata (Backend.clean [("k", sampleObj)]) "k" [("a", "b")] =
      (.ok [("a", "b")],
       storeSet [("k", sampleObj)] "k"
         { content := sampleObj.content, customMetadata := [("a", "b")],
           httpMetadata := { contentType := none } }) :=
  ((patch_metadata_roundtrip (Backend.clean [("k", sampleObj)]) "k"
      [("a", "b")] sampleObj rfl rfl rfl rfl).2 rfl rfl).1

/-- C4 counterexample: with an object present whose `custom_metadata()`
read fails with "meta read failed", `get` succeeds with the empty map —
the failure is replaced by a default value instead of being surfaced as a
backend error, contradicting the claim. -/
theorem get_custom_metadata_failure_suppressed :
    R2.get
        { Backend.clean [("k", sampleObj)] with
          customMetaFail := fun _ => some "meta read failed" } "k" =
      .ok ("k",
        { key := "k", size := 5,
          httpMetadata := { contentType := some "text/plain" } },
        { meta := { contentType := some "text/plain" } }, []) ∧
    R2.get
        { Backend.clean [("k", sampleObj)] with
          customMetaFail := fun _ => some "meta read failed" } "k" ≠
      .error "meta read failed" ∧
    sampleObj.customMetadata ≠ [] :=
  ⟨rfl, by decide, by decide⟩

/-- C4 amended: when the backend reports an object, `get` returns the
resolved key, its properties, its headers and its custom metadata; when
it reports no object, `get` fails with "Resource not found"; a failure of
the backend get call is surfaced with the message of the store; but a
failure to read the custom metadata of the object is not surfaced —
`get` substitutes the empty map and still succeeds. -/
theorem get_error_mapping (b : Backend) (path : String) :
    (∀ msg, b.getFail path none = some msg → R2.get b path = .error msg) ∧
    (b.getFail path none = none → b.store.lookup path = none →
      R2.get b path = .error "Resource not found") ∧
    (∀ o, b.getFail path none = none → b.store.lookup path = some o →
      b.customMetaFail path = none →
      R2.get b path = .ok (path, DavProperties.from (o.toObject path b),
        HttpResponseHeaders.from o.httpMetadata, o.customMetadata)) ∧
    (∀ o msg, b.getFail path none = none → b.store.lookup path = some o →
      b.customMetaFail path = some msg →
      R2.get b path = .ok (path, DavProperties.from (o.toObject path b),
        HttpResponseHeaders.from o.httpMetadata, [])) := by
  refine ⟨?_, ?_, ?_, ?_⟩
  · intro msg h
    simp [R2.get, Backend.getExec, h]
  · intro hg hl
    simp [R2.get, Backend.getExec, hg, hl]
  · intro o hg hl hc
    simp [R2.get, Backend.getExec, StoredObject.toObject, hg, hl, hc]
  · intro o msg hg hl hc
    simp [R2.get, Backend.getExec, StoredObject.toObject, hg, hl, hc]

/-- C4 amended witness: all four arms of the `get` contract at concrete
backends — transport failure, missing object, clean read, and the
suppressed custom-metadata read failure. -/
theorem get_error_mapping_witness :
    R2.get { Backend.clean [] with getFail := fun _ _ => some "net down" } "k" =
      .error "net down" ∧
    R2.get (Backend.clean []) "k" = .error "Resource not found" ∧
    R2.get (Backend.clean [("k", sampleObj)]) "k" =
      .ok ("k", DavProperties.from
          (sampleObj.toObject "k" (Backend.clean [("k", sampleObj)])),
        HttpResponseHeaders.from sampleObj.httpMetadata,
        sampleObj.customMetadata) ∧
    R2.get
        { Backend.clean [("k", sampleObj)] with
          customMetaFail := fun _ => some "meta broke" } "k" =
      .ok ("k", DavProperties.from (sampleObj.toObject "k"
          { Backend.clean [("k", sampleObj)] with
            customMetaFail := fun _ => some "meta broke" }),
        HttpResponseHeaders.from sampleObj.httpMetadata, []) :=
  ⟨(get_error_mapping _ "k").1 "net down" rfl,
   (get_error_mapping (Backend.clean []) "k").2.1 rfl rfl,
   (get_error_mapping _ "k").2.2.1 sampleObj rfl rfl rfl,
   (get_error_mapping _ "k").2.2.2 sampleObj "meta broke" rfl rfl rfl⟩

/-- C5 counterexample: in `patch_metadata`, an object whose body is
present but whose stream cannot be opened ("stream open failed") yields
that originating error text, not the BodyUnavailable text — so
BodyUnavailable is not produced exactly when content cannot be opened as
a stream, contradicting the claim. -/
theorem patch_metadata_stream_failure_not_body_unavailable :
    (R2.patch_metadata
        { Backend.clean [("k", sampleObj)] with
          streamFail := fun _ => some "stream open failed" } "k"
        [("a", "b")]).1 =
      .error "stream open failed" ∧
    (R2.patch_metadata
        { Backend.clean [("k", sampleObj)] with
          streamFail := fun _ => some "stream open failed" } "k"
        [("a", "b")]).1 ≠
      .error "Failed to get file body stream" :=
  ⟨rfl, by decide⟩

/-- C5 amended: `patch_metadata` and `download` fail with
"Resource not found" exactly when the backend reports no object;
`download` fails with "Failed to get file body stream" both when the body
is absent and when the stream cannot be opened; `patch_metadata` fails
with that text only when the body is absent, while a stream-open failure
surfaces the originating error text; every other backend failure is
surfaced with its originating text. -/
theorem patch_download_error_mapping (b : Backend) (path : String)
    (metadata : Smap) (r : Range) :
    (∀ msg, b.getFail path none = some msg →
      (R2.patch_metadata b path metadata).1 = .error msg) ∧
    (b.getFail path none = none → b.store.lookup path = none →
      (R2.patch_metadata b path metadata).1 = .error "Resource not found") ∧
    (∀ o, b.getFail path none = none → b.store.lookup path = some o →
      b.bodyAbsent path = true →
      (R2.patch_metadata b path metadata).1 =
        .error "Failed to get file body stream") ∧
    (∀ o msg, b.getFail path none = none → b.store.lookup path = some o →
      b.bodyAbsent path = false → b.streamFail path = some msg →
      (R2.patch_metadata b path metadata).1 = .error msg) ∧
    (∀ o msg, b.getFail path none = none → b.store.lookup path = some o →
      b.bodyAbsent path = false → b.streamFail path = none →
      b.putFail path { stream := o.content, length := o.content.length } = some msg →
      (R2.patch_metadata b path metadata).1 = .error msg) ∧
    (∀ msg, b.getFail path (toR2Range r) = some msg →
      R2.download b path r = .error msg) ∧
    (b.getFail path (toR2Range r) = none → b.store.lookup path = none →
      R2.download b path r = .error "Resource not found") ∧
    (∀ o, b.getFail path (toR2Range r) = none →
      b.store.lookup path = some o → b.bodyAbsent path = true →
      R2.download b path r = .error "Failed to get file body stream") ∧
    (∀ o msg, b.getFail path (toR2Range r) = none →
      b.store.lookup path = some o → b.bodyAbsent path = false →
      b.streamFail path = some msg →
      R2.download b path r = .error "Failed to get file body stream") := by
  refine ⟨?_, ?_, ?_, ?_, ?_, ?_, ?_, ?_, ?_⟩
  · intro msg h
    simp [R2.patch_metadata, Backend.getExec, h]
  · intro hg hl
    simp [R2.patch_metadata, Backend.getExec, hg, hl]
  · intro o hg hl hb
    simp [R2.patch_metadata, Backend.getExec, StoredObject.toObject, hg, hl, hb]
  · intro o msg hg hl hb hs
    simp [R2.patch_metadata, Backend.getExec, StoredObject.toObject,
      hg, hl, hb, hs]
  · intro o msg hg hl hb hs hp
    simp [R2.patch_metadata, Backend.getExec, Backend.putExec,
      StoredObject.toObject, hg, hl, hb, hs, hp]
  · intro msg h
    simp only [R2.download, Backend.getExec]
    rw [h]
  · intro hg hl
    simp only [R2.download, Backend.getExec]
    rw [hg]
    simp [hl]
  · intro o hg hl hb
    simp only [R2.download, Backend.getExec]
    rw [hg]
    simp [StoredObject.toObject, hl, hb]
  · intro o msg hg hl hb hs
    simp only [R2.download, Backend.getExec]
    rw [hg]
    simp [StoredObject.toObject, hl, hb, hs]

/-- C5 amended witness: each error arm of `patch_metadata` and `download`
exercised at a concrete backend. -/
theorem patch_download_error_mapping_witness :
    (R2.patch_metadata
      { Backend.clean [] with getFail := fun _ _ => some "net down" }
      "k" []).1 = .error "net down" ∧
    (R2.patch_metadata (Backend.clean []) "k" []).1 =
      .error "Resource not found" ∧
    (R2.patch_metadata
      { Backend.clean [("k", sampleObj)] with bodyAbsent := fun _ => true }
      "k" []).1 = .error "Failed to get file body stream" ∧
    (R2.patch_metadata
      { Backend.clean [("k", sampleObj)] with
        streamFail := fun _ => some "stream broke" }
      "k" []).1 = .error "stream broke" ∧
    (R2.patch_metadata
      { Backend.clean [("k", sampleObj)] with
        putFail := fun _ _ => some "upload refused" }
      "k" []).1 = .error "upload refused" ∧
    R2.download
      { Backend.clean [] with getFail := fun _ _ => some "net down" }
      "k" { start := none, «end» := none } = .error "net down" ∧
    R2.download (Backend.clean []) "k" { start := none, «end» := none } =
      .error "Resource not found" ∧
    R2.download
      { Backend.clean [("k", sampleObj)] with bodyAbsent := fun _ => true }
      "k" { start := none, «end» := none } =
      .error "Failed to get file body stream" ∧
    R2.download
      { Backend.clean [("k", sampleObj)] with
        streamFail := fun _ => some "stream broke" }
      "k" { start := none, «end» := none } =
      .error "Failed to get file body stream" :=
  ⟨(patch_download_error_mapping _ "k" [] { start := none, «end» := none }).1
      "net down" rfl,
   (patch_download_error_mapping (Backend.clean []) "k" []
      { start := none, «end» := none }).2.1 rfl rfl,
   (patch_download_error_mapping _ "k" [] { start := none, «end» := none }).2.2.1
      sampleObj rfl rfl rfl,
   (patch_download_error_mapping _ "k" [] { start := none, «end» := none }).2.2.2.1
      sampleObj "stream broke" rfl rfl rfl rfl,
   (patch_download_error_mapping _ "k" [] { start := none, «end» := none }).2.2.2.2.1
      sampleObj "upload refused" rfl rfl rfl rfl rfl,
   (patch_download_error_mapping _ "k" [] { start := none, «end» := none }).2.2.2.2.2.1
      "net down" rfl,
   (patch_download_error_mapping (Backend.clean []) "k" []
      { start := none, «end» := none }).2.2.2.2.2.2.1 rfl rfl,
   (patch_download_error_mapping _ "k" [] { start := none, «end» := none }).2.2.2.2.2.2.2.1
      sampleObj rfl rfl rfl,
   (patch_download_error_mapping _ "k" [] { start := none, «end» := none }).2.2.2.2.2.2.2.2
      sampleObj "stream broke" rfl rfl rfl rfl⟩

/-- C6 counterexample: when the re-upload succeeds but reading the custom
metadata back from the write response fails, `patch_metadata` returns an
error even though the object at the key has already been rewritten with
the new metadata — the operation is not all-or-nothing as claimed. -/
theorem patch_metadata_error_after_successful_upload :
    (R2.patch_metadata
        { Backend.clean [("k", sampleObj)] with
          putRespMetaFail := some "meta read failed" } "k" [("a", "b")]).1 =
      .error "meta read failed" ∧
    (R2.patch_metadata
        { Backend.clean [("k", sampleObj)] with
          putRespMetaFail := some "meta read failed" } "k" [("a", "b")]).2.lookup "k" =
      some { content := sampleObj.content, customMetadata := [("a", "b")],
             httpMetadata := { contentType := none } } ∧
    ({ Backend.clean [("k", sampleObj)] with
        putRespMetaFail := some "meta read failed" } : Backend).store.lookup "k" =
      some sampleObj ∧
    sampleObj.customMetadata ≠ [("a", "b")] :=
  ⟨rfl, rfl, rfl, by decide⟩

/-- C6 amended: `patch_metadata` is all-or-nothing except on the
write-response read-back path — whenever the backend can read the custom
metadata of its write response (no read-back failure injected) and the
operation returns an error, the backend store is left unchanged. -/
theorem patch_metadata_all_or_nothing_without_readback_failure
    (b : Backend) (path : String) (metadata : Smap)
    (hresp : b.putRespMetaFail = none) (e : String)
    (herr : (R2.patch_metadata b path metadata).1 = .error e) :
    (R2.patch_metadata b path metadata).2 = b.store := by
  cases hg : b.getFail path none with
  | some msg => simp [R2.patch_metadata, Backend.getExec, hg]
  | none =>
    cases hl : b.store.lookup path with
    | none => simp [R2.patch_metadata, Backend.getExec, hg, hl]
    | some o =>
      cases hb : b.bodyAbsent path with
      | true =>
        simp [R2.patch_metadata, Backend.getExec, StoredObject.toObject,
          hg, hl, hb]
      | false =>
        cases hs : b.streamFail path with
        | some msg =>
          simp [R2.patch_metadata, Backend.getExec, StoredObject.toObject,
            hg, hl, hb, hs]
        | none =>
          cases hp : b.putFail path { stream := o.content, length := o.content.length } with
          | some msg =>
            simp [R2.patch_metadata, Backend.getExec, Backend.putExec,
              StoredObject.toObject, hg, hl, hb, hs, hp]
          | none =>
            exfalso
            simp [R2.patch_metadata, Backend.getExec, Backend.putExec,
              StoredObject.toObject, hg, hl, hb, hs, hp, hresp] at herr

/-- C6 amended witness: a failed upload (backend refuses the put) leaves
the store exactly as it was. -/
theorem patch_metadata_all_or_nothing_witness :
    (R2.patch_metadata
        { Backend.clean [("k", sampleObj)] with
          putFail := fun _ _ => some "upload refused" } "k" [("a", "b")]).2 =
      [("k", sampleObj)] :=
  patch_metadata_all_or_nothing_without_readback_failure
    { Backend.clean [("k", sampleObj)] with
      putFail := fun _ _ => some "upload refused" }
    "k" [("a", "b")] rfl "upload refused" rfl

/-- C9: no operation validates or normalizes its path argument — the
result of each of the six operations is determined by the behaviour of
the backend at exactly the given path string (two backends agreeing
there are indistinguishable, whatever they do at any other path such as
a normalized variant), and the empty path is accepted and forwarded
without any adapter-level error: with an object stored at the empty key,
`get` of the empty path succeeds. -/
theorem ops_depend_only_on_path_argument (b1 b2 : Backend) (path : String)
    (h : Backend.agreesAt b1 b2 path) :
    R2.get b1 path = R2.get b2 path ∧
    R2.list b1 path = R2.list b2 path ∧
    (∀ m, (R2.patch_metadata b1 path m).1 = (R2.patch_metadata b2 path m).1) ∧
    (∀ r, R2.download b1 path r = R2.download b2 path r) ∧
    R2.delete b1 path = R2.delete b2 path ∧
    (∀ stream len,
      (R2.put b1 path stream len).1 = (R2.put b2 path stream len).1) ∧
    (∀ (s : Store) (o : StoredObject), s.lookup "" = some o →
      ∃ v, R2.get (Backend.clean s) "" = .ok v) := by
  have hge := Backend.getExec_congr h
  have hpe := Backend.putExec_fst_congr h
  obtain ⟨hl, hg, hc, hb, hs, hlist, hput, hr, hd⟩ := h
  refine ⟨?_, ?_, ?_, ?_, ?_, ?_, ?_⟩
  · simp only [R2.get, hge none]
  · simp only [R2.list, hlist]
  · intro m
    simp only [R2.patch_metadata, hge none]
    cases he : b2.getExec path none with
    | error e => simp
    | ok f =>
      cases f with
      | none => simp
      | some file =>
        cases hfb : file.body with
        | none => simp [hfb]
        | some bodyRes =>
          cases bodyRes with
          | error e => simp [hfb]
          | ok stream =>
            simp only [hfb]
            have hpe2 := hpe { stream := stream, length := file.size } (some m)
            rcases hq1 : b1.putExec path { stream := stream, length := file.size }
              (some m) with ⟨r1, s1⟩
            rcases hq2 : b2.putExec path { stream := stream, length := file.size }
              (some m) with ⟨r2, s2⟩
            rw [hq1, hq2] at hpe2
            simp only at hpe2
            subst hpe2
            cases r1 with
            | error e => simp
            | ok pf => cases hcm : pf.customMetadata <;> simp [hcm]
  · intro r
    simp only [R2.download, hge (toR2Range r)]
  · simp only [R2.delete, hd]
  · intro stream len
    simp only [R2.put]
    have hpe2 := hpe { stream := stream, length := len } none
    rcases hq1 : b1.putExec path { stream := stream, length := len } none
      with ⟨r1, s1⟩
    rcases hq2 : b2.putExec path { stream := stream, length := len } none
      with ⟨r2, s2⟩
    rw [hq1, hq2] at hpe2
    simp only at hpe2
    subst hpe2
    cases r1 <;> simp
  · intro s o hlook
    exact ⟨("", DavProperties.from (o.toObject "" (Backend.clean s)),
      HttpResponseHeaders.from o.httpMetadata, o.customMetadata), by
      simp [R2.get, Backend.getExec, Backend.clean, StoredObject.toObject, hlook]⟩

/-- C9 witness: two concrete backends that differ away from "k" give
identical results at "k", and `get` of the empty path succeeds when an
object is stored at the empty key. -/
theorem ops_depend_only_on_path_argument_witness :
    R2.get (Backend.clean [("k", sampleObj)]) "k" =
      R2.get (Backend.clean [("k", sampleObj), ("other", sampleObj)]) "k" ∧
    R2.delete (Backend.clean [("k", sampleObj)]) "k" =
      R2.delete (Backend.clean [("k", sampleObj), ("other", sampleObj)]) "k" ∧
    (∃ v, R2.get (Backend.clean [("", sampleObj)]) "" = .ok v) := by
  have h := ops_depend_only_on_path_argument
    (Backend.clean [("k", sampleObj)])
    (Backend.clean [("k", sampleObj), ("other", sampleObj)]) "k"
    ⟨rfl, rfl, rfl, rfl, rfl, rfl, rfl, rfl, rfl⟩
  exact ⟨h.1, h.2.2.2.2.1, h.2.2.2.2.2.2 [("", sampleObj)] sampleObj rfl⟩

end R2WebDav
